import Mathlib

/-!
Shallow embedding of the `abfahrt` departure-board renderer
(`src/abfahrt/renderer.py` and `src/abfahrt/models.py`) and proofs about
its layout and temporal-animation behaviour.

Modelling conventions:
* wall-clock instants and durations are exact rationals (epoch seconds);
  the float arithmetic the source performs on the values appearing here is
  modelled by exact rational arithmetic;
* Python `int(x)` (truncation toward zero) is `truncInt`, Python `round`
  (round half to even) is `pyRound`, Python `x % p` on floats is `fmod`,
  and Python `//` (floor division) is `Int.floor` of the rational quotient;
* a PIL font is modelled by its per-character advance widths, the measured
  width `font.getbbox(s)[2] - font.getbbox(s)[0]` of a string being the sum
  of the widths of its characters;
* the `ZeroDivisionError` that the constructor raises when `show_items = 0`
  is modelled by returning `none`;
* drawing is modelled by recording the texts and flags each drawing routine
  computes; pixel positions that no claim depends on are kept only where
  they feed a computed value (e.g. column widths feeding truncation).
-/

namespace Abfahrt

/-- Python `int(x)` applied to a float: truncation toward zero. -/
def truncInt (x : ℚ) : ℤ := if 0 ≤ x then ⌊x⌋ else -⌊-x⌋

/-- Python `round(x)` applied to a float: round half to even. -/
def pyRound (x : ℚ) : ℤ :=
  if x - ⌊x⌋ < 1/2 then ⌊x⌋
  else if 1/2 < x - ⌊x⌋ then ⌊x⌋ + 1
  else if ⌊x⌋ % 2 = 0 then ⌊x⌋ else ⌊x⌋ + 1

/-- Python `x % p` on floats: `x - p * floor (x / p)`. -/
def fmod (x p : ℚ) : ℚ := x - p * ⌊x / p⌋

/-- `SCROLL_SPEED = 30`: pixels per second for horizontal text scroll. -/
def SCROLL_SPEED : ℚ := 30

/-- `SCROLL_PAUSE = 2.0`: seconds to hold at start/end of a scroll cycle. -/
def SCROLL_PAUSE : ℚ := 2

/-- `BLINK_PERIOD = 2.0`: full blink cycle in seconds. -/
def BLINK_PERIOD : ℚ := 2

/-- `abfahrt.models.Departure`: one row of the board.  The two optional
ISO-8601 timestamp strings are modelled by the instants they denote
(epoch seconds); `none` is Python `None`. -/
structure Departure where
  line_name : String
  line_product : String
  direction : String
  when : Option ℚ
  planned_when : Option ℚ
  delay_seconds : Option ℤ
  platform : Option String
  remarks : List String
  is_cancelled : Bool
deriving DecidableEq

/-- `Departure.minutes_until`: minutes until departure at instant `now`,
from the real-time timestamp `when` with `planned_when` as fallback;
`max(0, int(delta.total_seconds() // 60))`, or `None` without timestamps. -/
def Departure.minutes_until (d : Departure) (now : ℚ) : Option ℤ :=
  match d.when.orElse (fun _ => d.planned_when) with
  | none => none
  | some ts => some (max 0 ⌊(ts - now) / 60⌋)

/-- `Departure.delay_minutes`: `delay_seconds // 60`, `0` if `None`. -/
def Departure.delay_minutes (d : Departure) : ℤ :=
  match d.delay_seconds with
  | none => 0
  | some s => ⌊(s : ℚ) / 60⌋

/-- The blink-phase test `time.time() % BLINK_PERIOD < BLINK_PERIOD / 2`
at instant `now`. -/
def blinkPhase (now : ℚ) : Bool :=
  decide (fmod now BLINK_PERIOD < BLINK_PERIOD / 2)

/-- The hurry-zone blink condition of `_draw_departure_row`:
`not cancelled and minutes is not None and
max(0, walking_minutes - 3) <= minutes <= walking_minutes and
time.time() % BLINK_PERIOD < BLINK_PERIOD / 2`. -/
def hurryBlinkOn (d : Departure) (now : ℚ) (walking_minutes : ℤ) : Bool :=
  (!d.is_cancelled) &&
    (match d.minutes_until now with
     | none => false
     | some m =>
       decide (max 0 (walking_minutes - 3) ≤ m) && decide (m ≤ walking_minutes)) &&
    blinkPhase now

/-- The hurry-zone blink condition as the specification words it, with
lower bound `max 1 (walking_minutes - 3)`; stated for comparison with
`hurryBlinkOn`, which is the condition the source computes. -/
def hurryBlinkSpec (d : Departure) (now : ℚ) (walking_minutes : ℤ) : Bool :=
  (!d.is_cancelled) &&
    (match d.minutes_until now with
     | none => false
     | some m =>
       decide (max 1 (walking_minutes - 3) ≤ m) && decide (m ≤ walking_minutes)) &&
    blinkPhase now

/-- The keyword arguments of `DepartureRenderer.__init__` (defaults as in
the source); the font filename arguments carry no layout information and
are omitted. -/
structure RendererConfig where
  width : ℤ := 1520
  height : ℤ := 180
  station_name_size : ℤ := 20
  header_size : ℤ := 13
  departure_size : ℤ := 18
  remark_size : ℤ := 13
  show_remarks : Bool := true
  show_items : ℕ := 4
deriving DecidableEq

/-- The layout constants `DepartureRenderer.__init__` derives and stores on
the instance (plus the intermediate `row_pad` and the solved per-row font
size, which the proofs refer to). -/
structure Layout where
  width : ℤ
  height : ℤ
  scale : ℚ
  pad : ℤ
  station_name_height : ℤ
  first_row_y : ℤ
  row_pad : ℤ
  departure_size : ℤ
  max_rows : ℕ
  row_height : ℤ
  show_remarks : Bool
  station_name_size : ℤ
  header_size : ℤ
  remark_size : ℤ
  info_size : ℤ
deriving DecidableEq

/-- `DepartureRenderer.__init__`: derivation of the layout constants.
Returns `none` exactly when the Python constructor raises: with
`show_items = 0` the expression `available / show_items` raises
`ZeroDivisionError`.  (No other input is rejected by the source.) -/
def rendererInit (cfg : RendererConfig) : Option Layout :=
  let scale : ℚ := cfg.height / 128
  let station_name_size := max 6 (pyRound (cfg.station_name_size * scale))
  let header_size := max 6 (pyRound (cfg.header_size * scale))
  let remark_size := max 6 (pyRound (cfg.remark_size * scale))
  let pad := max 2 (pyRound (8 * scale))
  let station_name_pad := max 2 (pyRound (8 * scale))
  let header_gap := max 1 (pyRound (2 * scale))
  let station_name_height := station_name_size + station_name_pad
  let first_row_y := station_name_height + header_gap
  let row_pad := max 2 (pyRound (4 * scale))
  if cfg.show_items = 0 then none
  else
    let available : ℚ := (cfg.height : ℚ) - (first_row_y : ℚ)
    let departure_size := max 6 (truncInt (available / (cfg.show_items : ℚ) - (row_pad : ℚ)))
    let info_size := max 6 ((header_size + station_name_size) / 2)
    some
      { width := cfg.width
        height := cfg.height
        scale := scale
        pad := pad
        station_name_height := station_name_height
        first_row_y := first_row_y
        row_pad := row_pad
        departure_size := departure_size
        max_rows := cfg.show_items
        row_height := departure_size + row_pad
        show_remarks := cfg.show_remarks
        station_name_size := station_name_size
        header_size := header_size
        remark_size := remark_size
        info_size := info_size }

/-- The measured pixel width of a string under a font given by
per-character advance widths. -/
def textWidth (font : Char → ℕ) (s : String) : ℕ :=
  (s.data.map font).sum

/-- The `".."` marker `_truncate_text` appends (two characters, not a
single Unicode character, to save horizontal space). -/
def ellipsis : String := ".."

/-- The descending-length search of `_truncate_text`:
`for end in range(len(text), 0, -1)`, returning the first candidate
`text[:end] + ".."` that fits, and `".."` if none does. -/
def truncateLoop (font : Char → ℕ) (text : String) (max_width : ℤ) : ℕ → String
  | 0 => ellipsis
  | e + 1 =>
    let candidate := String.mk (text.data.take (e + 1)) ++ ellipsis
    if (textWidth font candidate : ℤ) ≤ max_width then candidate
    else truncateLoop font text max_width e

/-- `DepartureRenderer._truncate_text`. -/
def truncateText (font : Char → ℕ) (text : String) (max_width : ℤ) : String :=
  if text = "" then ""
  else if (textWidth font text : ℤ) ≤ max_width then text
  else truncateLoop font text max_width text.length

/-- The crop offset and completion flag a scroll computes. -/
structure ScrollResult where
  offset : ℤ
  done : Bool
deriving DecidableEq

/-- The overflowing-text branch of `_draw_scrolling_text`
(`text_w > max_width`): crop offset and done flag as a function of the
elapsed `scroll_time`.  The speed and pause are parameters here; the
source reads them from the module constants `SCROLL_SPEED` and
`SCROLL_PAUSE`. -/
def scrollPhase (speed pause : ℚ) (text_w max_width : ℤ) (scroll_time : ℚ) :
    ScrollResult :=
  let scroll_distance : ℤ := text_w - max_width
  let scroll_duration : ℚ := (scroll_distance : ℚ) / speed
  let cycle : ℚ := pause + scroll_duration + pause
  let scroll_done : Bool := decide (cycle ≤ scroll_time)
  let offset : ℤ :=
    if scroll_time < pause then 0
    else if scroll_time < pause + scroll_duration then
      truncInt ((scroll_time - pause) * speed)
    else scroll_distance
  ⟨max 0 (min offset scroll_distance), scroll_done⟩

/-- The return value of `_draw_scrolling_text`, fits-case included: `true`
when the text fits its column, otherwise the overflow scroll's done flag
at the module constants' speed and pause. -/
def drawScrollingTextDone (font : Char → ℕ) (text : String) (max_width : ℤ)
    (scroll_time : ℚ) : Bool :=
  if (textWidth font text : ℤ) ≤ max_width then true
  else (scrollPhase SCROLL_SPEED SCROLL_PAUSE (textWidth font text) max_width scroll_time).done

/-- `abfahrt.weather.WeatherData` as the renderer consumes it:
temperatures plus the precomputed `precip_summary` string (empty when the
12-hour precipitation total is zero). -/
structure WeatherData where
  current_temp : ℚ
  daily_low : ℚ
  daily_high : ℚ
  precip_summary : String
deriving DecidableEq

/-- A `DepartureRenderer` instance: the cached layout, the loaded fonts
(modelled by advance widths), and the single mutable field
`_scroll_start`. -/
structure RendererState where
  layout : Layout
  font_station_name : Char → ℕ
  font_info : Char → ℕ
  font_linie : Char → ℕ
  font_departure : Char → ℕ
  font_remark : Char → ℕ
  scroll_start : ℚ

/-- Two-digit zero-padded decimal. -/
def pad2 (n : ℤ) : String :=
  if n < 10 then "0" ++ toString n else toString n

/-- `strftime("%H:%M")` of an epoch instant (rendered in UTC; the source
converts to the process-local timezone first, which only shifts the hour
by a constant). -/
def formatHHMM (ts : ℚ) : String :=
  pad2 (⌊ts / 3600⌋ % 24) ++ ":" ++ pad2 (⌊ts / 60⌋ % 60)

/-- What `_draw_station_name` draws: clock text, whether the connectivity
dot is currently amber (visible), the weather text if any, and the
truncated station name. -/
structure HeaderResult where
  time_str : String
  dot_amber : Bool
  weather_str : Option String
  station_text : String
deriving DecidableEq

/-- The temperature summary `f"{t:.0f}C {lo:.0f}/{hi:.0f}C"` (Python's
`%.0f` rounds half to even, like `round`). -/
def tempSummary (w : WeatherData) : String :=
  toString (pyRound w.current_temp) ++ "C " ++ toString (pyRound w.daily_low)
    ++ "/" ++ toString (pyRound w.daily_high) ++ "C"

/-- `DepartureRenderer._draw_station_name` at instant `now`. -/
def drawStationName (st : RendererState) (station_name : String)
    (weather : Option WeatherData) (weather_page : ℤ) (fetch_ok : Bool)
    (now : ℚ) : HeaderResult :=
  let time_str := formatHHMM now
  let dot_amber := if fetch_ok then false else !blinkPhase now
  let weather_str := weather.map fun w =>
    if w.precip_summary ≠ "" && weather_page % 2 = 1 then w.precip_summary
    else tempSummary w
  let truncate_margin := max 10 (pyRound (20 * st.layout.scale))
  let station_text :=
    truncateText st.font_station_name station_name (st.layout.width - truncate_margin)
  ⟨time_str, dot_amber, weather_str, station_text⟩

/-- The texts and flags `_draw_departure_row` computes for one row. -/
structure RowResult where
  line_text : String
  ziel_text : String
  dep_time_text : String
  num_str : String
  delay_text : String
  blink_on : Bool
  scroll_done : Bool
deriving DecidableEq

/-- `DepartureRenderer._draw_departure_row` at instant `now`, with
`scroll_time` the elapsed time since the scroll epoch.  Column positions
`int(width * COL)` are `truncInt` of the exact products. -/
def drawDepartureRow (st : RendererState) (dep : Departure)
    (scroll_time : ℚ) (walking_minutes : ℤ) (now : ℚ) : RowResult :=
  let L := st.layout
  let x_linie : ℤ := truncInt ((L.width : ℚ) * (2 / 100))
  let x_ziel : ℤ := truncInt ((L.width : ℚ) * (16 / 100))
  let x_time : ℤ := L.width - L.pad
  let min_area_w : ℤ :=
    (textWidth st.font_departure "00" : ℤ) + textWidth st.font_departure "+00"
      + textWidth st.font_departure "m"
  let dep_time_w : ℤ := textWidth st.font_departure "00:00"
  let x_dep_time := x_time - min_area_w - L.pad - dep_time_w
  let minutes := dep.minutes_until now
  let blink_on := hurryBlinkOn dep now walking_minutes
  let max_w_linie := x_ziel - x_linie - L.pad
  let line_text := truncateText st.font_linie dep.line_name max_w_linie
  let x_remarks : ℤ := truncInt ((L.width : ℚ) * (58 / 100))
  let max_w_ziel :=
    if L.show_remarks then x_remarks - x_ziel - L.pad
    else x_dep_time - x_ziel - L.pad
  let max_w_remarks := (x_dep_time - x_remarks) - L.pad
  let ziel_text :=
    if dep.is_cancelled && !blinkPhase now then "Fällt aus"
    else truncateText st.font_departure dep.direction max_w_ziel
  let scroll_done :=
    if L.show_remarks && !dep.remarks.isEmpty && decide (20 < max_w_remarks) then
      drawScrollingTextDone st.font_departure
        (String.intercalate ", " dep.remarks) max_w_remarks scroll_time
    else true
  let dep_time_text :=
    match dep.when.orElse (fun _ => dep.planned_when) with
    | none => "--:--"
    | some ts => formatHHMM ts
  let num_str := match minutes with | none => "--" | some m => toString m
  let delay_text :=
    if 0 < dep.delay_minutes then "+" ++ toString dep.delay_minutes else ""
  { line_text := line_text
    ziel_text := ziel_text
    dep_time_text := dep_time_text
    num_str := num_str
    delay_text := delay_text
    blink_on := blink_on
    scroll_done := scroll_done }

/-- `DepartureRenderer.render` at instant `now`, with the renderer state
passed explicitly (the source reads `self._scroll_start` and writes no
instance field).  Returns the state, the header, the results of the rows
drawn (`departures[:max_rows]`), and the aggregate `all_done` flag. -/
def render (st : RendererState) (departures : List Departure)
    (station_name : String) (walking_minutes : ℤ)
    (weather : Option WeatherData) (weather_page : ℤ) (fetch_ok : Bool)
    (now : ℚ) :
    RendererState × HeaderResult × List RowResult × Bool :=
  let header := drawStationName st station_name weather weather_page fetch_ok now
  let scroll_time := now - st.scroll_start
  let rows := (departures.take st.layout.max_rows).map fun dep =>
    drawDepartureRow st dep scroll_time walking_minutes now
  let all_done := rows.foldl (fun acc r => acc && r.scroll_done) true
  (st, header, rows, all_done)

/-- `DepartureRenderer.render_empty` at instant `now`: the header plus the
centered, truncated "Keine Abfahrten" message; state passed explicitly as
in `render`. -/
def renderEmpty (st : RendererState) (station_name : String)
    (lines : List String) (weather : Option WeatherData) (weather_page : ℤ)
    (fetch_ok : Bool) (now : ℚ) :
    RendererState × HeaderResult × String :=
  let header := drawStationName st station_name weather weather_page fetch_ok now
  let msg :=
    if lines.isEmpty then "Keine Abfahrten"
    else "Keine Abfahrten: " ++ String.intercalate " / " lines
  let msg := truncateText st.font_departure msg (st.layout.width - st.layout.pad * 2)
  (st, header, msg)

/-! ### Helper lemmas -/

/-- Truncation toward zero of a nonpositive value is nonpositive. -/
lemma truncInt_nonpos {x : ℚ} (h : x < 0) : truncInt x ≤ 0 := by
  rw [truncInt, if_neg (not_le.mpr h)]
  have : (0:ℤ) ≤ ⌊-x⌋ := Int.le_floor.mpr (by push_cast; linarith)
  omega

/-- Truncation toward zero agrees with the floor on nonnegative values. -/
lemma truncInt_eq_floor {x : ℚ} (h : 0 ≤ x) : truncInt x = ⌊x⌋ := by
  rw [truncInt, if_pos h]

/-- Folding conjunction from an accumulator equals the accumulator
conjoined with `List.all`. -/
lemma foldl_and_eq_all {α : Type} (f : α → Bool) :
    ∀ (l : List α) (b : Bool),
      l.foldl (fun acc x => acc && f x) b = (b && l.all f) := by
  intro l
  induction l with
  | nil => intro b; simp
  | cons x xs ih =>
    intro b
    simp only [List.foldl_cons, List.all_cons, ih, Bool.and_assoc]

/-- `all` over a mapped list tests the composite. -/
lemma all_map_comp {α β : Type} (l : List α) (f : α → β) (p : β → Bool) :
    (l.map f).all p = l.all fun x => p (f x) := by
  induction l with
  | nil => rfl
  | cons x xs ih => simp [ih]

/-- A string with the ellipsis marker appended is never empty. -/
lemma append_ellipsis_ne_empty (s : String) : s ++ ellipsis ≠ "" := by
  intro h
  have hd : (s ++ ellipsis).data = ([] : List Char) := by rw [h]
  have : s.data ++ ellipsis.data = ([] : List Char) := hd
  simp [ellipsis] at this

/-- A string with `"+"` prepended is never empty. -/
lemma plus_append_ne_empty (s : String) : "+" ++ s ≠ "" := by
  intro h
  have hd : ("+" ++ s).data = ([] : List Char) := by rw [h]
  have : ("+" : String).data ++ s.data = ([] : List Char) := hd
  simp at this

/-- Truncation returns a fitting string unchanged. -/
lemma truncateText_of_fits (font : Char → ℕ) (s : String) (w : ℤ)
    (h : (textWidth font s : ℤ) ≤ w) : truncateText font s w = s := by
  rw [truncateText]
  by_cases h0 : s = ""
  · simp [h0]
  · rw [if_neg h0, if_pos h]

/-- Every result of the descending-length search is the ellipsis marker or
a fitting candidate `text[:e] + ".."` with `1 ≤ e`. -/
lemma truncateLoop_result (font : Char → ℕ) (text : String) (w : ℤ) :
    ∀ n, truncateLoop font text w n = ellipsis ∨
      ∃ e, 1 ≤ e ∧
        truncateLoop font text w n = String.mk (text.data.take e) ++ ellipsis ∧
        (textWidth font (String.mk (text.data.take e) ++ ellipsis) : ℤ) ≤ w := by
  intro n
  induction n with
  | zero => exact Or.inl rfl
  | succ e ih =>
    rw [truncateLoop]
    split
    · exact Or.inr ⟨e + 1, by omega, rfl, by assumption⟩
    · exact ih

/-- If every candidate `text[:e] + ".."` with `1 ≤ e ≤ n` overflows, the
descending-length search returns the bare ellipsis marker. -/
lemma truncateLoop_all_overflow (font : Char → ℕ) (text : String) (w : ℤ) :
    ∀ n, (∀ e, e < n + 1 → 1 ≤ e →
        w < textWidth font (String.mk (text.data.take e) ++ ellipsis)) →
      truncateLoop font text w n = ellipsis := by
  intro n
  induction n with
  | zero => intro _; rfl
  | succ e ih =>
    intro h
    rw [truncateLoop]
    rw [if_neg (not_le.mpr (h (e + 1) (by omega) (by omega)))]
    exact ih fun e' he' h1 => h e' (by omega) h1

/-! ### C9: `render` and `render_empty` leave the renderer state unchanged -/

/-- C9: neither `render` nor `render_empty` modifies any field of the
renderer state; in the explicit-state embedding both return the input
state unchanged (the scroll epoch `_scroll_start` is read via
`scroll_time` but never written), so for a fixed instant the renderer is a
pure function of (departures, context, renderer state). -/
theorem render_preserves_state (st : RendererState) (departures : List Departure)
    (station_name : String) (walking_minutes : ℤ) (weather : Option WeatherData)
    (weather_page : ℤ) (fetch_ok : Bool) (now : ℚ) (lines : List String) :
    (render st departures station_name walking_minutes weather weather_page
        fetch_ok now).1 = st ∧
    (renderEmpty st station_name lines weather weather_page fetch_ok now).1 = st :=
  ⟨rfl, rfl⟩

/-! ### C10: `render` draws only the first `max_rows` departures -/

/-- C10: `render` succeeds on any departure list; it draws exactly the
first `max_rows` entries (the output is unchanged when the list is cut to
`max_rows`), and the aggregate flag is the conjunction of the drawn rows'
done flags (`true` for an empty list). -/
theorem render_take_max_rows (st : RendererState) (departures : List Departure)
    (station_name : String) (walking_minutes : ℤ) (weather : Option WeatherData)
    (weather_page : ℤ) (fetch_ok : Bool) (now : ℚ) :
    render st departures station_name walking_minutes weather weather_page
        fetch_ok now =
      render st (departures.take st.layout.max_rows) station_name
        walking_minutes weather weather_page fetch_ok now ∧
    (render st departures station_name walking_minutes weather weather_page
        fetch_ok now).2.2.2 =
      (departures.take st.layout.max_rows).all fun dep =>
        (drawDepartureRow st dep (now - st.scroll_start) walking_minutes
            now).scroll_done := by
  constructor
  · simp [render, List.take_take]
  · simp only [render]
    rw [foldl_and_eq_all]
    simp only [Bool.true_and]
    exact all_map_comp _ _ _

/-! ### C4: construction-time validation -/

/-- C4 counterexample: the constructor does not reject non-positive canvas
dimensions — it succeeds with zero or negative width and height, contrary
to the claim that such construction fails fast. -/
theorem rendererInit_accepts_bad_dims :
    (rendererInit {width := 0, height := 64}).isSome = true ∧
    (rendererInit {width := 256, height := 0}).isSome = true ∧
    (rendererInit {width := -5, height := -5}).isSome = true := by
  decide

/-- C4 amended: of the claimed checks, only a row count of zero fails fast
at construction time (the `available / show_items` division raises
`ZeroDivisionError`); non-positive width or height silently yields a
renderer instance. -/
theorem rendererInit_zero_rows (cfg : RendererConfig)
    (h : cfg.show_items = 0) : rendererInit cfg = none := by
  simp [rendererInit, h]

/-- Witness for `rendererInit_zero_rows` at a concrete configuration. -/
theorem rendererInit_zero_rows_witness :
    rendererInit {width := 1520, height := 180, show_items := 0} = none :=
  rendererInit_zero_rows _ rfl

/-! ### C7: `minutes_until` and `delay_minutes` -/

/-- C7: `minutes_until` is `max 0 ⌊(effective − now)/60⌋` of the effective
timestamp (`when`, falling back to `planned_when`), is `none` exactly when
both timestamps are null, and is `0` whenever the effective timestamp is
at or before `now`; `delay_minutes` is `⌊delay_seconds/60⌋`, `0` when
null. -/
theorem minutes_until_delay_spec (d : Departure) (now : ℚ) :
    (d.minutes_until now = none ↔ d.when = none ∧ d.planned_when = none) ∧
    (∀ ts, d.when.orElse (fun _ => d.planned_when) = some ts →
      d.minutes_until now = some (max 0 ⌊(ts - now) / 60⌋) ∧
      (ts ≤ now → d.minutes_until now = some 0)) ∧
    (∀ s, d.delay_seconds = some s → d.delay_minutes = ⌊(s : ℚ) / 60⌋) ∧
    (d.delay_seconds = none → d.delay_minutes = 0) := by
  refine ⟨?_, ?_, ?_, ?_⟩
  · cases hw : d.when <;> cases hp : d.planned_when <;>
      simp [Departure.minutes_until, Option.orElse, hw, hp]
  · intro ts hts
    have hmain : d.minutes_until now = some (max 0 ⌊(ts - now) / 60⌋) := by
      rw [Departure.minutes_until, hts]
    refine ⟨hmain, fun hle => ?_⟩
    have hq : (ts - now) / 60 ≤ 0 :=
      div_nonpos_iff.mpr (Or.inr ⟨by linarith, by norm_num⟩)
    have hfl : ⌊(ts - now) / 60⌋ ≤ 0 := by
      calc ⌊(ts - now) / 60⌋ ≤ ⌊(0 : ℚ)⌋ := Int.floor_le_floor hq
        _ = 0 := Int.floor_zero
    rw [hmain, max_eq_left hfl]
  · intro s hs
    simp [Departure.delay_minutes, hs]
  · intro hs
    simp [Departure.delay_minutes, hs]

/-- A departure whose effective timestamp is the epoch and whose delay is
120 seconds. -/
def c7dep : Departure :=
  { line_name := "S7", line_product := "suburban", direction := "Ahrensfelde"
    when := some 0, planned_when := none, delay_seconds := some 120
    platform := none, remarks := [], is_cancelled := false }

/-- Witness for `minutes_until_delay_spec`: at `now = 60` the effective
timestamp is in the past, so `minutes_until` clamps to `0`, and the
120-second delay gives `delay_minutes = ⌊120/60⌋`. -/
theorem minutes_until_delay_spec_witness :
    c7dep.minutes_until 60 = some 0 ∧
    c7dep.delay_minutes = ⌊((120 : ℤ) : ℚ) / 60⌋ :=
  ⟨((minutes_until_delay_spec c7dep 60).2.1 0 rfl).2 (by norm_num),
   (minutes_until_delay_spec c7dep 60).2.2.1 120 rfl⟩

/-! ### C2: scroll offset and completion flag -/

/-- C2: for overflowing text (`C < W`) and positive speed, the crop offset
is `0` during the initial pause, `⌊(t − Pz)·S⌋` during the linear phase,
and `W − C` afterwards; it always lies in `[0, W − C]`; and the done flag
holds exactly from `t = 2·Pz + (W − C)/S` on. -/
theorem scrollPhase_spec (W C : ℤ) (S Pz t : ℚ) (hWC : C < W) (hS : 0 < S) :
    (scrollPhase S Pz W C t).offset =
      (if t < Pz then 0
       else if t < Pz + ((W - C : ℤ) : ℚ) / S then ⌊(t - Pz) * S⌋
       else W - C) ∧
    0 ≤ (scrollPhase S Pz W C t).offset ∧
    (scrollPhase S Pz W C t).offset ≤ W - C ∧
    ((scrollPhase S Pz W C t).done = true ↔ 2 * Pz + ((W - C : ℤ) : ℚ) / S ≤ t) := by
  have hD : (0 : ℤ) < W - C := by omega
  have hDq : (0 : ℚ) < ((W - C : ℤ) : ℚ) := by exact_mod_cast hD
  simp only [scrollPhase]
  refine ⟨?_, ?_, ?_, ?_⟩
  · by_cases h1 : t < Pz
    · rw [if_pos h1, if_pos h1]
      simp [min_eq_left (le_of_lt hD)]
    · rw [if_neg h1, if_neg h1]
      by_cases h2 : t < Pz + ((W - C : ℤ) : ℚ) / S
      · rw [if_pos h2, if_pos h2]
        have ht0 : 0 ≤ (t - Pz) * S :=
          mul_nonneg (by linarith [not_lt.mp h1]) (le_of_lt hS)
        rw [truncInt_eq_floor ht0]
        have hlt : (t - Pz) * S < ((W - C : ℤ) : ℚ) := by
          have := (lt_div_iff₀ hS).mp (by linarith : t - Pz < ((W - C : ℤ) : ℚ) / S)
          linarith
        have hfl_lt : ⌊(t - Pz) * S⌋ < W - C := by
          have h3 : (⌊(t - Pz) * S⌋ : ℚ) < ((W - C : ℤ) : ℚ) :=
            lt_of_le_of_lt (Int.floor_le _) hlt
          exact_mod_cast h3
        have hfl_nn : 0 ≤ ⌊(t - Pz) * S⌋ := Int.floor_nonneg.mpr ht0
        rw [min_eq_left (le_of_lt hfl_lt), max_eq_right hfl_nn]
      · rw [if_neg h2, if_neg h2]
        simp [le_of_lt hD]
  · exact le_max_left 0 _
  · exact max_le (le_of_lt hD) (min_le_right _ _)
  · simp only [decide_eq_true_eq]
    constructor <;> intro h <;> linarith

/-- Witness for `scrollPhase_spec`: the spec's worked scenario — a 400 px
text in a 150 px column at 30 px/s with a 2 s pause, sampled at
`t = 8.16 s` (`204/25`), which lies in the linear phase. -/
theorem scrollPhase_spec_witness :
    ((150 : ℤ) < 400 ∧ (0 : ℚ) < 30) ∧
    (scrollPhase 30 2 400 150 (204/25)).offset =
      (if (204/25 : ℚ) < 2 then 0
       else if (204/25 : ℚ) < 2 + ((400 - 150 : ℤ) : ℚ) / 30 then
         ⌊((204/25 : ℚ) - 2) * 30⌋
       else 400 - 150) ∧
    0 ≤ (scrollPhase 30 2 400 150 (204/25)).offset ∧
    (scrollPhase 30 2 400 150 (204/25)).offset ≤ 400 - 150 ∧
    ((scrollPhase 30 2 400 150 (204/25)).done = true ↔
      2 * 2 + ((400 - 150 : ℤ) : ℚ) / 30 ≤ (204/25 : ℚ)) :=
  ⟨⟨by norm_num, by norm_num⟩,
   scrollPhase_spec 400 150 30 2 (204/25) (by norm_num) (by norm_num)⟩

/-! ### C1: the hurry-zone blink condition -/

/-- A departure at exactly `now` (so `minutes_until = 0`), not cancelled. -/
def c1dep : Departure :=
  { line_name := "S7", line_product := "suburban", direction := "Potsdam"
    when := some 0, planned_when := none, delay_seconds := none
    platform := none, remarks := [], is_cancelled := false }

/-- C1 counterexample: with `walking_minutes = 3` and `minutes_until = 0`
at a blink-on instant, the source blinks (its lower bound is
`max 0 (walking − 3) = 0`) while the claimed condition with lower bound
`max 1 (walking − 3) = 1` does not; the lower bound is not 1 for
`walking_minutes ≤ 3`. -/
theorem hurry_blink_counterexample :
    hurryBlinkOn c1dep 0 3 = true ∧ hurryBlinkSpec c1dep 0 3 = false := by
  constructor <;>
    norm_num [hurryBlinkOn, hurryBlinkSpec, c1dep, Departure.minutes_until,
      blinkPhase, fmod, BLINK_PERIOD, Option.orElse]

/-- C1 amended: the hurry-zone blink is on exactly when the departure is
not cancelled, `minutes_until` is known, `max 0 (walking_minutes − 3) ≤
minutes_until ≤ walking_minutes` (lower bound floored at 0, not 1), and
`now mod BLINK_PERIOD < BLINK_PERIOD / 2`. -/
theorem hurry_blink_amended (d : Departure) (now : ℚ) (walking_minutes : ℤ) :
    hurryBlinkOn d now walking_minutes = true ↔
      d.is_cancelled = false ∧
      ∃ m, d.minutes_until now = some m ∧
        max 0 (walking_minutes - 3) ≤ m ∧ m ≤ walking_minutes ∧
        fmod now BLINK_PERIOD < BLINK_PERIOD / 2 := by
  cases hm : d.minutes_until now with
  | none => simp [hurryBlinkOn, hm]
  | some m =>
    simp [hurryBlinkOn, hm, blinkPhase, Bool.and_assoc, and_assoc]

/-! ### C3: rows fit below the header -/

/-- The layout `rendererInit` derives at 256×64 with 4 rows. -/
def layout64 : Layout := ⟨256, 64, 1/2, 4, 14, 15, 2, 10, 4, 12, true, 10, 6, 6, 8⟩

/-- The layout `rendererInit` derives at 1520×180 with 4 rows. -/
def layout180 : Layout := ⟨1520, 180, 45/32, 11, 39, 42, 6, 28, 4, 34, true, 28, 18, 18, 23⟩

/-- The layout `rendererInit` derives at 256×16 with 4 rows. -/
def layout16 : Layout := ⟨256, 16, 1/8, 2, 8, 9, 2, 6, 4, 8, true, 6, 6, 6, 6⟩

/-- Evaluation of `rendererInit` at 256×64. -/
lemma rendererInit_64 : rendererInit {width := 256, height := 64} = some layout64 := by
  norm_num [rendererInit, pyRound, truncInt, layout64]

/-- Evaluation of `rendererInit` at 1520×180. -/
lemma rendererInit_180 : rendererInit {width := 1520, height := 180} = some layout180 := by
  norm_num [rendererInit, pyRound, truncInt, layout180]

/-- Evaluation of `rendererInit` at 256×16. -/
lemma rendererInit_16 : rendererInit {width := 256, height := 16} = some layout16 := by
  norm_num [rendererInit, pyRound, truncInt, layout16]

/-- C3 counterexample: at 256×16 with 4 rows (positive width and height,
`row_count ≥ 1`) the solved font size hits its floor of 6 and the rows
overflow the canvas: `first_row_y + 4 · row_height = 41 > 16`. -/
theorem layout_rows_overflow :
    rendererInit {width := 256, height := 16} = some layout16 ∧
    (16 : ℤ) < layout16.first_row_y + (layout16.max_rows : ℤ) * layout16.row_height :=
  ⟨rendererInit_16, by norm_num [layout16]⟩

/-- C3 amended: whenever the dynamically solved per-row font size does not
hit its lower floor of 6 — that is, `⌊(height − header_bottom)/row_count −
row_padding⌋ ≥ 6` — the header bottom plus `row_count · row_height` does
not exceed the canvas height; this holds in particular at 256×64 and
1520×180 with 4 rows.  (Without that proviso the invariant fails, see the
counterexample.) -/
theorem layout_rows_fit (cfg : RendererConfig) (L : Layout)
    (hinit : rendererInit cfg = some L)
    (hsolved : 6 ≤ truncInt (((cfg.height : ℚ) - (L.first_row_y : ℚ)) /
        (cfg.show_items : ℚ) - (L.row_pad : ℚ))) :
    L.first_row_y + (L.max_rows : ℤ) * L.row_height ≤ cfg.height := by
  by_cases h0 : cfg.show_items = 0
  · simp [rendererInit, h0] at hinit
  · rw [rendererInit] at hinit
    simp only [h0, if_false, Option.some.injEq] at hinit
    subst hinit
    simp only at hsolved ⊢
    set fry : ℤ := max 6 (pyRound ((cfg.station_name_size : ℚ) * ((cfg.height : ℚ) / 128))) +
      max 2 (pyRound (8 * ((cfg.height : ℚ) / 128))) +
      max 1 (pyRound (2 * ((cfg.height : ℚ) / 128))) with hfry
    set rp : ℤ := max 2 (pyRound (4 * ((cfg.height : ℚ) / 128))) with hrp
    set q : ℚ := ((cfg.height : ℚ) - (fry : ℚ)) / (cfg.show_items : ℚ) - (rp : ℚ) with hq
    have hq0 : 0 ≤ q := by
      by_contra hneg
      push_neg at hneg
      have := truncInt_nonpos hneg
      omega
    have htr : truncInt q = ⌊q⌋ := truncInt_eq_floor hq0
    have hmax : max 6 (truncInt q) = ⌊q⌋ := by
      rw [htr] at hsolved ⊢
      omega
    rw [hmax]
    have hk : (0 : ℚ) < (cfg.show_items : ℚ) := by
      exact_mod_cast Nat.pos_of_ne_zero h0
    have hfloor : (⌊q⌋ : ℚ) ≤ q := Int.floor_le q
    have h2 : (⌊q⌋ : ℚ) + (rp : ℚ) ≤ ((cfg.height : ℚ) - (fry : ℚ)) / (cfg.show_items : ℚ) := by
      rw [hq] at hfloor
      linarith
    rw [le_div_iff₀ hk] at h2
    have h3 : (cfg.show_items : ℚ) * ((⌊q⌋ : ℚ) + (rp : ℚ)) ≤ (cfg.height : ℚ) - (fry : ℚ) := by
      rw [mul_comm]
      exact h2
    have hgoal : (fry : ℚ) + (cfg.show_items : ℚ) * ((⌊q⌋ : ℚ) + (rp : ℚ)) ≤ (cfg.height : ℚ) := by
      linarith
    exact_mod_cast hgoal

/-- Witness for `layout_rows_fit` at the two resolutions the claim names:
256×64 with 4 rows (15 + 4·12 = 63 ≤ 64) and 1520×180 with 4 rows
(42 + 4·34 = 178 ≤ 180). -/
theorem layout_rows_fit_witness :
    layout64.first_row_y + (layout64.max_rows : ℤ) * layout64.row_height ≤ 64 ∧
    layout180.first_row_y + (layout180.max_rows : ℤ) * layout180.row_height ≤ 180 :=
  ⟨layout_rows_fit _ _ rendererInit_64 (by norm_num [truncInt, layout64]),
   layout_rows_fit _ _ rendererInit_180 (by norm_num [truncInt, layout180])⟩

/-! ### C8: the delay suffix in the minutes-until column -/

/-- Advance width 10 for every character: a simple concrete font. -/
def constFont10 : Char → ℕ := fun _ => 10

/-- A concrete renderer state over the 256×64 layout. -/
def testState : RendererState :=
  { layout := layout64, font_station_name := constFont10
    font_info := constFont10, font_linie := constFont10
    font_departure := constFont10, font_remark := constFont10
    scroll_start := 0 }

/-- A departure running 60 seconds early (`delay_seconds = −60`, so
`delay_minutes = −1`). -/
def c8depNeg : Departure :=
  { line_name := "S5", line_product := "suburban", direction := "Strausberg"
    when := some 300, planned_when := some 360, delay_seconds := some (-60)
    platform := none, remarks := [], is_cancelled := false }

/-- C8 counterexample: for a departure with `delay_minutes = −1 ≠ 0` the
drawn delay suffix is the empty string, so the suffix is not empty exactly
when `delay_minutes` is 0, and a negative delay is not shown signed. -/
theorem delay_suffix_counterexample :
    (drawDepartureRow testState c8depNeg 0 5 0).delay_text = "" ∧
    c8depNeg.delay_minutes = -1 := by
  have hdm : c8depNeg.delay_minutes = -1 := by
    norm_num [Departure.delay_minutes, c8depNeg]
  exact ⟨by simp [drawDepartureRow, hdm], hdm⟩

/-- C8 amended: the delay suffix is empty exactly when `delay_minutes ≤ 0`
(not only when it is 0), and for positive `delay_minutes` it is the
plus-signed delay. -/
theorem delay_suffix_amended (st : RendererState) (dep : Departure)
    (scroll_time : ℚ) (walking_minutes : ℤ) (now : ℚ) :
    ((drawDepartureRow st dep scroll_time walking_minutes now).delay_text = "" ↔
      dep.delay_minutes ≤ 0) ∧
    (0 < dep.delay_minutes →
      (drawDepartureRow st dep scroll_time walking_minutes now).delay_text =
        "+" ++ toString dep.delay_minutes) := by
  by_cases h : 0 < dep.delay_minutes
  · constructor
    · simp only [drawDepartureRow, if_pos h]
      exact ⟨fun he => absurd he (plus_append_ne_empty _), fun hle => absurd h (not_lt.mpr hle)⟩
    · intro _
      simp only [drawDepartureRow, if_pos h]
  · constructor
    · simp only [drawDepartureRow, if_neg h]
      simp [not_lt.mp h]
    · intro h'
      exact absurd h' h

/-- A departure with a 120-second delay (`delay_minutes = 2`). -/
def c8depPos : Departure :=
  { line_name := "S7", line_product := "suburban", direction := "Potsdam"
    when := some 840, planned_when := some 720, delay_seconds := some 120
    platform := none, remarks := [], is_cancelled := false }

/-- Witness for `delay_suffix_amended`: a +2 minute delay draws the suffix
`"+2"`. -/
theorem delay_suffix_amended_witness :
    (drawDepartureRow testState c8depPos 0 5 0).delay_text =
      "+" ++ toString c8depPos.delay_minutes :=
  (delay_suffix_amended testState c8depPos 0 5 0).2
    (by norm_num [Departure.delay_minutes, c8depPos])

/-! ### C5: truncation respects the pixel budget -/

/-- C5: when the budget is at least the width of the `".."` marker, the
truncated string never measures wider than the budget; and when the text
overflows and no candidate `text[:e] + ".."` fits even at `e = 1`, the
bare marker is returned rather than failing. -/
theorem truncate_width_le (font : Char → ℕ) (text : String) (w : ℤ)
    (hell : (textWidth font ellipsis : ℤ) ≤ w) :
    (textWidth font (truncateText font text w) : ℤ) ≤ w ∧
    ((w : ℤ) < textWidth font text →
      (∀ e, e < text.length + 1 → 1 ≤ e →
        (w : ℤ) < textWidth font (String.mk (text.data.take e) ++ ellipsis)) →
      truncateText font text w = ellipsis) := by
  have hw0 : (0 : ℤ) ≤ w := le_trans (Int.ofNat_nonneg _) hell
  constructor
  · rw [truncateText]
    by_cases h0 : text = ""
    · rw [if_pos h0]
      simpa [textWidth] using hw0
    · rw [if_neg h0]
      by_cases h1 : (textWidth font text : ℤ) ≤ w
      · rwa [if_pos h1]
      · rw [if_neg h1]
        rcases truncateLoop_result font text w text.length with h | ⟨e, _, heq, hle⟩
        · rw [h]; exact hell
        · rw [heq]; exact hle
  · intro hover hall
    have h0 : text ≠ "" := by
      intro h
      rw [h] at hover
      simp [textWidth] at hover
      omega
    rw [truncateText, if_neg h0, if_neg (not_le.mpr hover)]
    exact truncateLoop_all_overflow font text w text.length hall

/-- Witness for `truncate_width_le`: with every character 10 px wide and a
25 px budget, `".."` (20 px) fits but no candidate over `"abc"` does, so
truncation returns the bare marker, which fits the budget. -/
theorem truncate_width_le_witness :
    (textWidth constFont10 ellipsis : ℤ) ≤ 25 ∧
    (textWidth constFont10 (truncateText constFont10 "abc" 25) : ℤ) ≤ 25 ∧
    truncateText constFont10 "abc" 25 = ellipsis :=
  ⟨by decide,
   (truncate_width_le constFont10 "abc" 25 (by decide)).1,
   (truncate_width_le constFont10 "abc" 25 (by decide)).2 (by decide) (by decide)⟩

/-! ### C6: truncation is idempotent -/

/-- The measured width of a concatenation is the sum of the widths. -/
lemma textWidth_append (font : Char → ℕ) (s t : String) :
    textWidth font (s ++ t) = textWidth font s + textWidth font t := by
  have h : (s ++ t).data = s.data ++ t.data := rfl
  simp [textWidth, h]

/-- C6: truncation is idempotent — truncating a truncated string with the
same font and budget returns it unchanged. -/
theorem truncate_idempotent (font : Char → ℕ) (text : String) (w : ℤ) :
    truncateText font (truncateText font text w) w =
      truncateText font text w := by
  by_cases h0 : text = ""
  · subst h0
    simp [truncateText]
  · by_cases h1 : (textWidth font text : ℤ) ≤ w
    · rw [truncateText_of_fits font text w h1, truncateText_of_fits font text w h1]
    · have hloop : truncateText font text w = truncateLoop font text w text.length := by
        rw [truncateText, if_neg h0, if_neg h1]
      rcases truncateLoop_result font text w text.length with h | ⟨e, _, heq, hle⟩
      · -- the search failed: the result is the bare ellipsis marker
        rw [hloop, h]
        by_cases h2 : (textWidth font ellipsis : ℤ) ≤ w
        · exact truncateText_of_fits font ellipsis w h2
        · -- even ".." overflows; every candidate over ".." then overflows too
          have hne : ellipsis ≠ "" := by decide
          rw [truncateText, if_neg hne, if_neg h2]
          apply truncateLoop_all_overflow
          intro e' he' h1'
          have hcand : textWidth font ellipsis ≤
              textWidth font (String.mk (ellipsis.data.take e') ++ ellipsis) := by
            rw [textWidth_append]
            omega
          push_neg at h2
          omega
      · -- the search returned a fitting candidate, which is nonempty and fits
        rw [hloop, heq]
        exact truncateText_of_fits font _ w hle

end Abfahrt
